import Mathlib

/-!
Shallow embedding of kepler.gl's src/utils/export-utils.js and proofs about it.

Machine numbers are modelled as Int (pixel dimensions) or Rat (scale factors);
JS strings are Lean String or List Char; absent object properties are Option;
thrown exceptions are modelled with Except.
-/

/-! ## Geometry calculator (calculateExportImageSize, getScaleFromImageSize) -/

structure ImgSize where
  width : Int
  height : Int
  deriving DecidableEq

/-- Math.round applied to the exact rational num/den (den > 0):
JS Math.round x = floor (x + 1/2), and floor ((num/den) + 1/2) = (2*num + den) fdiv (2*den). -/
def jsRound (num den : Int) : Int := Int.fdiv (2 * num + den) (2 * den)

/-- Modelled from the spec: the ratio-preset identifiers of EXPORT_IMG_RATIOS
(constants/default-settings is not part of the sources; the spec fixes a
"custom" variant and a 4:3 default). -/
def EXPORT_IMG_RATIOS_SCREEN : String := "SCREEN"

/-- Modelled from the spec: the "custom" ratio identifier. -/
def EXPORT_IMG_RATIOS_CUSTOM : String := "CUSTOM"

/-- Modelled from the spec: the 4:3 ratio identifier (the default ratio). -/
def EXPORT_IMG_RATIOS_FOUR_BY_THREE : String := "FOUR_BY_THREE"

/-- Modelled from the spec: the 16:9 ratio identifier. -/
def EXPORT_IMG_RATIOS_SIXTEEN_BY_NINE : String := "SIXTEEN_BY_NINE"

/-- Modelled from the spec: the 1x resolution identifier (the default resolution). -/
def RESOLUTIONS_ONE_X : String := "ONE_X"

/-- Modelled from the spec: the 2x resolution identifier. -/
def RESOLUTIONS_TWO_X : String := "TWO_X"

/-- Modelled from the spec: a resolution preset is an identifier plus a sizing
function (baseW, baseH) to scaled dimensions and an associated scale factor. -/
structure ResolutionPreset where
  id : String
  scale : Int
  getSize : Int → Int → ImgSize

/-- Modelled from the spec: a ratio preset is an identifier plus a sizing
function honoring a fixed aspect ratio, or a custom variant passing
dimensions through unchanged. -/
structure RatioPreset where
  id : String
  getSize : Int → Int → ImgSize

/-- Modelled from the spec: the "original screen" ratio keeps both dimensions. -/
def ratioScreen : RatioPreset := ⟨EXPORT_IMG_RATIOS_SCREEN, fun w h => ⟨w, h⟩⟩

/-- Modelled from the spec: the custom ratio passes dimensions through unchanged. -/
def ratioCustom : RatioPreset := ⟨EXPORT_IMG_RATIOS_CUSTOM, fun w h => ⟨w, h⟩⟩

/-- Modelled from the spec: the 4:3 ratio keeps the width and derives the
height as round (w * 3/4). -/
def ratioFourByThree : RatioPreset :=
  ⟨EXPORT_IMG_RATIOS_FOUR_BY_THREE, fun w _ => ⟨w, jsRound (3 * w) 4⟩⟩

/-- Modelled from the spec: the 16:9 ratio keeps the width and derives the
height as round (w * 9/16). -/
def ratioSixteenByNine : RatioPreset :=
  ⟨EXPORT_IMG_RATIOS_SIXTEEN_BY_NINE, fun w _ => ⟨w, jsRound (9 * w) 16⟩⟩

/-- Modelled from the spec: the fixed enumeration of ratio presets. -/
def EXPORT_IMG_RATIO_OPTIONS : List RatioPreset :=
  [ratioScreen, ratioCustom, ratioFourByThree, ratioSixteenByNine]

/-- Modelled from the spec: the 1x resolution is the identity with scale 1. -/
def resolutionOneX : ResolutionPreset := ⟨RESOLUTIONS_ONE_X, 1, fun w h => ⟨w, h⟩⟩

/-- Modelled from the spec: the 2x resolution doubles both dimensions, scale 2. -/
def resolutionTwoX : ResolutionPreset := ⟨RESOLUTIONS_TWO_X, 2, fun w h => ⟨2 * w, 2 * h⟩⟩

/-- Modelled from the spec: the fixed enumeration of resolution presets. -/
def EXPORT_IMG_RESOLUTION_OPTIONS : List ResolutionPreset :=
  [resolutionOneX, resolutionTwoX]

/-- Source: const defaultResolution = EXPORT_IMG_RESOLUTION_OPTIONS.find(op onexid). -/
def defaultResolution : ResolutionPreset :=
  (EXPORT_IMG_RESOLUTION_OPTIONS.find? (fun op => op.id == RESOLUTIONS_ONE_X)).getD
    ⟨"", 0, fun w h => ⟨w, h⟩⟩

/-- Source: const defaultRatio = EXPORT_IMG_RATIO_OPTIONS.find(op fourbythreeid). -/
def defaultRatio : RatioPreset :=
  (EXPORT_IMG_RATIO_OPTIONS.find? (fun op => op.id == EXPORT_IMG_RATIOS_FOUR_BY_THREE)).getD
    ⟨"", fun w h => ⟨w, h⟩⟩

/-- Result record of calculateExportImageSize; scale is undefined (none) for
the custom ratio. -/
structure ExportImageSize where
  scale : Option Int
  imageW : Int
  imageH : Int
  deriving DecidableEq

/-- Ratio lookup with fallback to the default, as in the source. -/
def resolveRatio (ratio : String) : RatioPreset :=
  (EXPORT_IMG_RATIO_OPTIONS.find? (fun op => op.id == ratio)).getD defaultRatio

/-- Resolution lookup with fallback to the default, as in the source. -/
def resolveResolution (resolution : String) : ResolutionPreset :=
  (EXPORT_IMG_RESOLUTION_OPTIONS.find? (fun op => op.id == resolution)).getD defaultResolution

/-- Embedding of calculateExportImageSize from export-utils.js. -/
def calculateExportImageSize (mapW mapH : Int) (ratio resolution : String) :
    Option ExportImageSize :=
  if mapW ≤ 0 ∨ mapH ≤ 0 then
    none
  else
    let ratioItem := resolveRatio ratio
    let resolutionItem := resolveResolution resolution
    let scaled := resolutionItem.getSize mapW mapH
    let image := ratioItem.getSize scaled.width scaled.height
    some
      { scale := if ratioItem.id == EXPORT_IMG_RATIOS_CUSTOM then none
                 else some resolutionItem.scale,
        imageW := image.width,
        imageH := image.height }

/-- Embedding of getScaleFromImageSize from export-utils.js, over exact
rational arithmetic. -/
def getScaleFromImageSize (imageW imageH mapW mapH : ℚ) : ℚ :=
  if imageW ≤ 0 ∨ imageH ≤ 0 ∨ mapW ≤ 0 ∨ mapH ≤ 0 then 1
  else
    let base := if 1 < imageW / imageH then imageW else imageH
    let mapBase := if 1 < imageW / imageH then mapW else mapH
    base / mapBase

lemma defaultRatio_eq : defaultRatio = ratioFourByThree := rfl

lemma defaultResolution_eq : defaultResolution = resolutionOneX := rfl

lemma resolveRatio_mem (ratio : String) : resolveRatio ratio ∈ EXPORT_IMG_RATIO_OPTIONS := by
  unfold resolveRatio
  cases h : EXPORT_IMG_RATIO_OPTIONS.find? (fun op => op.id == ratio) with
  | none =>
      rw [Option.getD_none, defaultRatio_eq]
      exact List.mem_cons_of_mem _ (List.mem_cons_of_mem _ (List.mem_cons_self _ _))
  | some x =>
      rw [Option.getD_some]
      exact List.mem_of_find?_eq_some h

lemma resolveResolution_mem (resolution : String) :
    resolveResolution resolution ∈ EXPORT_IMG_RESOLUTION_OPTIONS := by
  unfold resolveResolution
  cases h : EXPORT_IMG_RESOLUTION_OPTIONS.find? (fun op => op.id == resolution) with
  | none =>
      rw [Option.getD_none, defaultResolution_eq]
      exact List.mem_cons_self _ _
  | some x =>
      rw [Option.getD_some]
      exact List.mem_of_find?_eq_some h

lemma jsRound_pos (num den : Int) (hden : 0 < den) (h : den ≤ 2 * num) :
    0 < jsRound num den := by
  unfold jsRound
  rw [Int.fdiv_eq_ediv _ (by linarith)]
  have h1 : (1 : Int) ≤ (2 * num + den) / (2 * den) := by
    rw [Int.le_ediv_iff_mul_le (by linarith)]
    linarith
  linarith

lemma ratio_getSize_pos (op : RatioPreset) (hop : op ∈ EXPORT_IMG_RATIO_OPTIONS)
    (w h : Int) (hw : 0 < w) (hh : 0 < h) :
    0 < (op.getSize w h).width ∧ 0 < (op.getSize w h).height := by
  simp only [EXPORT_IMG_RATIO_OPTIONS] at hop
  fin_cases hop
  · exact ⟨hw, hh⟩
  · exact ⟨hw, hh⟩
  · exact ⟨hw, jsRound_pos (3 * w) 4 (by norm_num) (by omega)⟩
  · exact ⟨hw, jsRound_pos (9 * w) 16 (by norm_num) (by omega)⟩

lemma resolution_getSize_pos (op : ResolutionPreset)
    (hop : op ∈ EXPORT_IMG_RESOLUTION_OPTIONS)
    (w h : Int) (hw : 0 < w) (hh : 0 < h) :
    0 < (op.getSize w h).width ∧ 0 < (op.getSize w h).height := by
  simp only [EXPORT_IMG_RESOLUTION_OPTIONS] at hop
  fin_cases hop
  · exact ⟨hw, hh⟩
  · constructor
    · show (0 : Int) < 2 * w
      omega
    · show (0 : Int) < 2 * h
      omega

/-- Claim C1: calculateExportImageSize returns null exactly when mapW <= 0 or
mapH <= 0; for every mapW > 0 and mapH > 0 and any ratio/resolution
identifiers (unknown identifiers fall back to the default presets), it
returns a geometry whose image width and image height are both strictly
positive. -/
theorem calculateExportImageSize_null_iff_and_pos (mapW mapH : Int)
    (ratio resolution : String) :
    (calculateExportImageSize mapW mapH ratio resolution = none ↔ mapW ≤ 0 ∨ mapH ≤ 0) ∧
    (0 < mapW → 0 < mapH →
      ∃ g, calculateExportImageSize mapW mapH ratio resolution = some g ∧
        0 < g.imageW ∧ 0 < g.imageH) := by
  by_cases hbad : mapW ≤ 0 ∨ mapH ≤ 0
  · constructor
    · simp [calculateExportImageSize, hbad]
    · intro hw hh
      rcases hbad with h | h <;> omega
  · have hscaled := resolution_getSize_pos (resolveResolution resolution)
      (resolveResolution_mem resolution) mapW mapH (by omega) (by omega)
    have himage := ratio_getSize_pos (resolveRatio ratio) (resolveRatio_mem ratio)
      ((resolveResolution resolution).getSize mapW mapH).width
      ((resolveResolution resolution).getSize mapW mapH).height hscaled.1 hscaled.2
    constructor
    · simp [calculateExportImageSize, hbad]
    · intro _ _
      unfold calculateExportImageSize
      rw [if_neg hbad]
      exact ⟨_, rfl, himage.1, himage.2⟩

/-- Witness for C1 at a concrete input. -/
theorem calculateExportImageSize_null_iff_and_pos_witness :
    ∃ g, calculateExportImageSize 800 600 "FOUR_BY_THREE" "ONE_X" = some g ∧
      0 < g.imageW ∧ 0 < g.imageH :=
  (calculateExportImageSize_null_iff_and_pos 800 600 "FOUR_BY_THREE" "ONE_X").2
    (by decide) (by decide)

/-- Claim C2: in the result of calculateExportImageSize (for positive map
dimensions), the scale field is undefined exactly when the resolved ratio
preset is the custom variant, regardless of the resolution preset; for every
non-custom ratio, scale equals the resolved resolution preset's scale. -/
theorem calculateExportImageSize_scale_custom (mapW mapH : Int)
    (ratio resolution : String) (g : ExportImageSize)
    (hg : calculateExportImageSize mapW mapH ratio resolution = some g) :
    (g.scale = none ↔ (resolveRatio ratio).id = EXPORT_IMG_RATIOS_CUSTOM) ∧
    ((resolveRatio ratio).id ≠ EXPORT_IMG_RATIOS_CUSTOM →
      g.scale = some (resolveResolution resolution).scale) := by
  by_cases hbad : mapW ≤ 0 ∨ mapH ≤ 0
  · simp [calculateExportImageSize, hbad] at hg
  · unfold calculateExportImageSize at hg
    rw [if_neg hbad] at hg
    have hgs := (Option.some.injEq _ _).mp hg
    subst hgs
    cases hid : ((resolveRatio ratio).id == EXPORT_IMG_RATIOS_CUSTOM) with
    | true =>
        have : (resolveRatio ratio).id = EXPORT_IMG_RATIOS_CUSTOM := eq_of_beq hid
        simp [hid, this]
    | false =>
        have : ¬ (resolveRatio ratio).id = EXPORT_IMG_RATIOS_CUSTOM := by
          intro he
          rw [he] at hid
          simp at hid
        simp [hid, this]

/-- Witness for C2 at the custom ratio with the 2x resolution. -/
theorem calculateExportImageSize_scale_custom_witness :
    ((⟨none, 1600, 1200⟩ : ExportImageSize).scale = none ↔
      (resolveRatio "CUSTOM").id = EXPORT_IMG_RATIOS_CUSTOM) ∧
    ((resolveRatio "CUSTOM").id ≠ EXPORT_IMG_RATIOS_CUSTOM →
      (⟨none, 1600, 1200⟩ : ExportImageSize).scale = some (resolveResolution "TWO_X").scale) :=
  calculateExportImageSize_scale_custom 800 600 "CUSTOM" "TWO_X"
    ⟨none, 1600, 1200⟩ (by decide)

/-- Counterexample for C3: on the square image 10 x 10 over the 5 x 2 map, the
claim says the result is imageW / mapW = 10 / 5 = 2 (square counts as
landscape), but the code takes the height branch and returns 10 / 2 = 5. -/
theorem getScaleFromImageSize_square_cex :
    getScaleFromImageSize 10 10 5 2 = 5 ∧ ((10 : ℚ) / 5 = 2) ∧
    getScaleFromImageSize 10 10 5 2 ≠ (10 : ℚ) / 5 := by
  norm_num [getScaleFromImageSize]

/-- Claim C3 (amended): getScaleFromImageSize returns exactly 1 whenever any of
the four arguments is <= 0; for all four arguments strictly positive, it
returns imageW / mapW when the image is strictly landscape (imageW > imageH),
and imageH / mapH when it is portrait or square (imageW <= imageH). -/
theorem getScaleFromImageSize_amended (imageW imageH mapW mapH : ℚ) :
    ((imageW ≤ 0 ∨ imageH ≤ 0 ∨ mapW ≤ 0 ∨ mapH ≤ 0) →
      getScaleFromImageSize imageW imageH mapW mapH = 1) ∧
    (0 < imageW → 0 < imageH → 0 < mapW → 0 < mapH →
      (imageH < imageW → getScaleFromImageSize imageW imageH mapW mapH = imageW / mapW) ∧
      (imageW ≤ imageH → getScaleFromImageSize imageW imageH mapW mapH = imageH / mapH)) := by
  constructor
  · intro h
    simp [getScaleFromImageSize, h]
  · intro hiw hih hmw hmh
    have hcond : ¬(imageW ≤ 0 ∨ imageH ≤ 0 ∨ mapW ≤ 0 ∨ mapH ≤ 0) := by
      push_neg
      exact ⟨hiw, hih, hmw, hmh⟩
    constructor
    · intro hlt
      have h1 : 1 < imageW / imageH := (one_lt_div hih).mpr hlt
      simp [getScaleFromImageSize, hcond, h1]
    · intro hle
      have h1 : ¬ (1 < imageW / imageH) := by
        rw [one_lt_div hih]
        exact not_lt.mpr hle
      simp [getScaleFromImageSize, hcond, h1]

/-- Witness for the amended C3: a boundary input, a strictly landscape input
and a square input. -/
theorem getScaleFromImageSize_amended_witness :
    getScaleFromImageSize 0 5 5 5 = 1 ∧
    getScaleFromImageSize 4 2 2 1 = 4 / 2 ∧
    getScaleFromImageSize 3 3 6 2 = 3 / 2 :=
  ⟨(getScaleFromImageSize_amended 0 5 5 5).1 (by norm_num),
   ((getScaleFromImageSize_amended 4 2 2 1).2 (by norm_num) (by norm_num)
      (by norm_num) (by norm_num)).1 (by norm_num),
   ((getScaleFromImageSize_amended 3 3 6 2).2 (by norm_num) (by norm_num)
      (by norm_num) (by norm_num)).2 (by norm_num)⟩

/-! ## Data URI decoder (dataURItoBlob) -/

set_option maxRecDepth 10000

/-- JS String.prototype.split with a single-character separator, on char lists. -/
def jsSplit (sep : Char) : List Char → List (List Char)
  | [] => [[]]
  | c :: rest =>
      let r := jsSplit sep rest
      if c = sep then [] :: r else (c :: r.headD []) :: r.tail

/-- The base64 alphabet used by atob/btoa. -/
def b64Chars : List Char :=
  "ABCDEFGHIJKLMNOPQRSTUVWXYZabcdefghijklmnopqrstuvwxyz0123456789+/".toList

/-- Character of a 6-bit value in the base64 alphabet. -/
def b64Char (n : Nat) : Char := b64Chars.getD n 'A'

/-- 6-bit value of a base64 alphabet character. -/
def b64Index (c : Char) : Nat := b64Chars.indexOf c

/-- Standard base64 encoder on byte values (the encoder of the claimed
round-trip; produces the payload atob receives). -/
def b64EncodeBytes : List Nat → List Char
  | a :: b :: c :: rest =>
      b64Char (a / 4) :: b64Char (a % 4 * 16 + b / 16) ::
      b64Char (b % 16 * 4 + c / 64) :: b64Char (c % 64) :: b64EncodeBytes rest
  | [a, b] => [b64Char (a / 4), b64Char (a % 4 * 16 + b / 16), b64Char (b % 16 * 4), '=']
  | [a] => [b64Char (a / 4), b64Char (a % 4 * 16), '=', '=']
  | [] => []

/-- Base64 decoding of a well-formed base64 string to byte values. -/
def b64DecodeBytes : List Char → List Nat
  | c1 :: c2 :: c3 :: c4 :: rest =>
      if c3 = '=' then [b64Index c1 * 4 + b64Index c2 / 16]
      else if c4 = '=' then
        [b64Index c1 * 4 + b64Index c2 / 16, b64Index c2 % 16 * 16 + b64Index c3 / 4]
      else
        (b64Index c1 * 4 + b64Index c2 / 16) ::
        (b64Index c2 % 16 * 16 + b64Index c3 / 4) ::
        (b64Index c3 % 4 * 64 + b64Index c4) :: b64DecodeBytes rest
  | _ => []

/-- JS atob: base64 string to a binary string whose char codes are the bytes. -/
def atob (s : List Char) : List Char := (b64DecodeBytes s).map Char.ofNat

/-- Result of dataURItoBlob: a Blob is its MIME type plus its bytes. -/
structure BlobData where
  mimeType : List Char
  bytes : List Nat
  deriving DecidableEq

/-- Embedding of dataURItoBlob from export-utils.js: split on the comma, atob
the payload, take char codes; the MIME type is the substring of the header
between the colon and the semicolon. -/
def dataURItoBlob (dataURI : List Char) : BlobData :=
  let binary := atob ((jsSplit ',' dataURI).getD 1 [])
  let mimeString :=
    (jsSplit ';' ((jsSplit ':' ((jsSplit ',' dataURI).getD 0 [])).getD 1 [])).getD 0 []
  { mimeType := mimeString, bytes := binary.map Char.toNat }

/-- The well-formed data URI of the claim: "data:" + M + ";base64," + base64(B). -/
def mkDataURI (M : List Char) (B : List Nat) : List Char :=
  "data:".toList ++ M ++ ";base64,".toList ++ b64EncodeBytes B

lemma b64Index_b64Char : ∀ n, n < 64 → b64Index (b64Char n) = n := by decide

lemma b64Char_ne_pad : ∀ n, n < 64 → b64Char n ≠ '=' := by decide

lemma char_ofNat_toNat : ∀ b, b < 256 → (Char.ofNat b).toNat = b := by decide

lemma b64Char_mem (n : Nat) : b64Char n ∈ b64Chars := by
  unfold b64Char
  rw [List.getD_eq_getElem?_getD]
  cases h : b64Chars[n]? with
  | none => simp; decide
  | some c =>
      simp only [Option.getD_some]
      exact List.getElem?_mem h

lemma mem_b64EncodeBytes : ∀ (bs : List Nat) (c : Char), c ∈ b64EncodeBytes bs →
    c ∈ b64Chars ∨ c = '=' := by
  intro bs
  induction bs using b64EncodeBytes.induct with
  | case1 a b c rest ih =>
      intro x hx
      simp only [b64EncodeBytes, List.mem_cons] at hx
      rcases hx with h | h | h | h | h
      · exact Or.inl (h ▸ b64Char_mem _)
      · exact Or.inl (h ▸ b64Char_mem _)
      · exact Or.inl (h ▸ b64Char_mem _)
      · exact Or.inl (h ▸ b64Char_mem _)
      · exact ih x h
  | case2 a b =>
      intro x hx
      simp only [b64EncodeBytes, List.mem_cons] at hx
      rcases hx with h | h | h | h | h
      · exact Or.inl (h ▸ b64Char_mem _)
      · exact Or.inl (h ▸ b64Char_mem _)
      · exact Or.inl (h ▸ b64Char_mem _)
      · exact Or.inr h
      · simp at h
  | case3 a =>
      intro x hx
      simp only [b64EncodeBytes, List.mem_cons] at hx
      rcases hx with h | h | h | h | h
      · exact Or.inl (h ▸ b64Char_mem _)
      · exact Or.inl (h ▸ b64Char_mem _)
      · exact Or.inr h
      · exact Or.inr h
      · simp at h
  | case4 =>
      intro x hx
      simp [b64EncodeBytes] at hx

lemma comma_not_mem_encode (bs : List Nat) : ',' ∉ b64EncodeBytes bs := by
  intro h
  rcases mem_b64EncodeBytes bs ',' h with h1 | h1
  · exact absurd h1 (by decide)
  · exact absurd h1 (by decide)

lemma b64_roundtrip : ∀ (bs : List Nat), (∀ b ∈ bs, b < 256) →
    b64DecodeBytes (b64EncodeBytes bs) = bs := by
  intro bs
  induction bs using b64EncodeBytes.induct with
  | case1 a b c rest ih =>
      intro h
      have ha : a < 256 := h a (by simp)
      have hb : b < 256 := h b (by simp)
      have hc : c < 256 := h c (by simp)
      simp only [b64EncodeBytes, b64DecodeBytes]
      rw [if_neg (b64Char_ne_pad _ (by omega)), if_neg (b64Char_ne_pad _ (by omega))]
      rw [b64Index_b64Char _ (by omega), b64Index_b64Char _ (by omega),
        b64Index_b64Char _ (by omega), b64Index_b64Char _ (by omega)]
      rw [ih (fun x hx => h x (by simp [hx]))]
      simp only [List.cons.injEq]
      refine ⟨by omega, by omega, by omega, trivial⟩
  | case2 a b =>
      intro h
      have ha : a < 256 := h a (by simp)
      have hb : b < 256 := h b (by simp)
      simp only [b64EncodeBytes, b64DecodeBytes]
      rw [if_neg (b64Char_ne_pad _ (by omega)), if_pos trivial]
      rw [b64Index_b64Char _ (by omega), b64Index_b64Char _ (by omega),
        b64Index_b64Char _ (by omega)]
      simp only [List.cons.injEq]
      refine ⟨by omega, by omega, trivial⟩
  | case3 a =>
      intro h
      have ha : a < 256 := h a (by simp)
      simp only [b64EncodeBytes, b64DecodeBytes]
      rw [if_pos trivial]
      rw [b64Index_b64Char _ (by omega), b64Index_b64Char _ (by omega)]
      simp only [List.cons.injEq]
      refine ⟨by omega, trivial⟩
  | case4 =>
      intro _
      simp [b64EncodeBytes, b64DecodeBytes]

lemma jsSplit_no_sep (sep : Char) : ∀ s : List Char, sep ∉ s → jsSplit sep s = [s] := by
  intro s
  induction s with
  | nil => intro _; rfl
  | cons c rest ih =>
      intro h
      have hc : ¬ (c = sep) := fun he => h (by simp [he])
      have hrest : sep ∉ rest := fun he => h (List.mem_cons_of_mem _ he)
      simp only [jsSplit, ih hrest]
      rw [if_neg hc]
      simp

lemma jsSplit_append (sep : Char) :
    ∀ s t : List Char, sep ∉ s → jsSplit sep (s ++ sep :: t) = s :: jsSplit sep t := by
  intro s
  induction s with
  | nil =>
      intro t _
      simp [jsSplit]
  | cons c s ih =>
      intro t h
      have hc : ¬ (c = sep) := fun he => h (by simp [he])
      have hs : sep ∉ s := fun he => h (List.mem_cons_of_mem _ he)
      simp only [List.cons_append, jsSplit, List.append_eq]
      rw [if_neg hc, ih t hs]
      simp

/-- Claim C4: for every MIME type string M (containing no colon, semicolon or
comma) and every byte sequence B, decoding the well-formed data URI
"data:" + M + ";base64," + base64(B) with dataURItoBlob yields exactly the
MIME type M (case-sensitive) and exactly the bytes B, with the output byte
length equal to the decoded base64 length. -/
theorem dataURItoBlob_roundtrip (M : List Char) (B : List Nat)
    (hM : ∀ c ∈ M, c ≠ ':' ∧ c ≠ ';' ∧ c ≠ ',') (hB : ∀ b ∈ B, b < 256) :
    (dataURItoBlob (mkDataURI M B)).mimeType = M ∧
    (dataURItoBlob (mkDataURI M B)).bytes = B ∧
    (dataURItoBlob (mkDataURI M B)).bytes.length
      = (b64DecodeBytes (b64EncodeBytes B)).length := by
  have hsb : (";base64,".toList : List Char) = ";base64".toList ++ [','] := by decide
  have hU : mkDataURI M B
      = ("data:".toList ++ M ++ ";base64".toList) ++ ',' :: b64EncodeBytes B := by
    unfold mkDataURI
    rw [hsb]
    simp [List.append_assoc]
  have hcomma : ',' ∉ ("data:".toList ++ M ++ ";base64".toList : List Char) := by
    intro hmem
    rcases List.mem_append.mp hmem with h1 | h1
    · rcases List.mem_append.mp h1 with h2 | h2
      · exact absurd h2 (by decide)
      · exact (hM _ h2).2.2 rfl
    · exact absurd h1 (by decide)
  have hsplit1 : jsSplit ',' (mkDataURI M B)
      = ("data:".toList ++ M ++ ";base64".toList) :: [b64EncodeBytes B] := by
    rw [hU, jsSplit_append ',' _ _ hcomma, jsSplit_no_sep ',' _ (comma_not_mem_encode B)]
  have hd : ("data:".toList : List Char) = "data".toList ++ [':'] := by decide
  have hheader : ("data:".toList ++ M ++ ";base64".toList : List Char)
      = "data".toList ++ ':' :: (M ++ ";base64".toList) := by
    rw [hd]
    simp [List.append_assoc]
  have hcolon2 : ':' ∉ (M ++ ";base64".toList : List Char) := by
    intro hmem
    rcases List.mem_append.mp hmem with h1 | h1
    · exact (hM _ h1).1 rfl
    · exact absurd h1 (by decide)
  have hsplit2 : jsSplit ':' ("data:".toList ++ M ++ ";base64".toList)
      = "data".toList :: [M ++ ";base64".toList] := by
    rw [hheader, jsSplit_append ':' _ _ (by decide), jsSplit_no_sep ':' _ hcolon2]
  have hsplit3 : jsSplit ';' (M ++ ";base64".toList) = M :: jsSplit ';' ("base64".toList) := by
    have h6 : (";base64".toList : List Char) = ';' :: "base64".toList := by decide
    rw [h6]
    exact jsSplit_append ';' _ _ (fun hmem => (hM _ hmem).2.1 rfl)
  have hbytes : b64DecodeBytes (b64EncodeBytes B) = B := b64_roundtrip B hB
  have hblob : dataURItoBlob (mkDataURI M B) = ⟨M, B⟩ := by
    simp only [dataURItoBlob, atob]
    rw [hsplit1]
    simp only [List.getD_cons_succ, List.getD_cons_zero]
    rw [hsplit2]
    simp only [List.getD_cons_succ, List.getD_cons_zero]
    rw [hsplit3]
    simp only [List.getD_cons_zero]
    rw [hbytes, List.map_map]
    simp only [BlobData.mk.injEq]
    refine ⟨trivial, ?_⟩
    have hmap : ∀ b ∈ B, (Char.toNat ∘ Char.ofNat) b = id b := fun b hb => by
      simp only [Function.comp_apply, id_eq]
      exact char_ofNat_toNat b (hB b hb)
    rw [List.map_congr_left hmap, List.map_id]
  refine ⟨by rw [hblob], by rw [hblob], by rw [hblob, hbytes]⟩

/-- Witness for C4 at the MIME type image/png and the PNG magic bytes. -/
theorem dataURItoBlob_roundtrip_witness :
    (dataURItoBlob (mkDataURI "image/png".toList [137, 80, 78, 71])).mimeType
      = "image/png".toList ∧
    (dataURItoBlob (mkDataURI "image/png".toList [137, 80, 78, 71])).bytes
      = [137, 80, 78, 71] ∧
    (dataURItoBlob (mkDataURI "image/png".toList [137, 80, 78, 71])).bytes.length
      = (b64DecodeBytes (b64EncodeBytes [137, 80, 78, 71])).length :=
  dataURItoBlob_roundtrip "image/png".toList [137, 80, 78, 71] (by decide) (by decide)

/-! ## Dataset selection and data export (exportData) -/

/-- A dataset as destructured by exportData: allData, fields, label, and the
possibly absent filteredIdxCPU property (none models an absent property,
which the destructuring defaults to the empty list). -/
structure Dataset (α : Type) where
  allData : List α
  fields : List String
  label : String
  filteredIdxCPU : Option (List Nat)
  deriving DecidableEq

/-- A payload handed to downloadFile: Blob content, Blob MIME type, filename. -/
structure Payload (β : Type) where
  content : β
  mimeType : String
  filename : String
  deriving DecidableEq

/-- Modelled from the spec: the EXPORT_DATA_TYPE.CSV identifier
(constants/default-settings is not part of the sources). -/
def EXPORT_DATA_TYPE_CSV : String := "csv"

/-- Source: export const DEFAULT_DATA_NAME. -/
def DEFAULT_DATA_NAME : String := "kepler-gl"

/-- Source: export const DEFAULT_HTML_NAME. -/
def DEFAULT_HTML_NAME : String := "kepler.gl.html"

/-- JS property access datasets of selectedDataset over an insertion-ordered
object, as an association list. -/
def lookupDataset {α : Type} (datasets : List (String × Dataset α)) (id : String) :
    Option (Dataset α) :=
  (datasets.find? (fun p => p.1 == id)).map (fun p => p.2)

/-- Source: datasets of selectedDataset when present, else Object.values(datasets). -/
def selectedDatasetsOf {α : Type} (datasets : List (String × Dataset α))
    (selectedDataset : String) : List (Dataset α) :=
  match lookupDataset datasets selectedDataset with
  | some d => [d]
  | none => datasets.map (fun p => p.2)

/-- Source: const toExport = filtered ? filteredIdxCPU.map(i allData at i) : allData
with destructuring default filteredIdxCPU = []; an out-of-range JS index reads
undefined, modelled by the Inhabited default. -/
def rowsToExport {α : Type} [Inhabited α] (ds : Dataset α) (filtered : Bool) : List α :=
  if filtered then (ds.filteredIdxCPU.getD []).map (fun i => ds.allData.getD i default)
  else ds.allData

/-- Embedding of exportData from export-utils.js, with the external CSV
serializer abstract; the result is the list of payloads handed to
downloadFile, in order. -/
def exportData {α β : Type} [Inhabited α] (formatCsv : List α → List String → β)
    (datasets : List (String × Dataset α)) (selectedDataset dataType : String)
    (filtered : Bool) : List (Payload β) :=
  let selected := selectedDatasetsOf datasets selectedDataset
  if selected.length = 0 then []
  else
    selected.flatMap (fun sd =>
      if dataType == EXPORT_DATA_TYPE_CSV then
        [{ content := formatCsv (rowsToExport sd filtered) sd.fields,
           mimeType := "text/csv",
           filename := DEFAULT_DATA_NAME ++ "_" ++ sd.label ++ ".csv" }]
      else [])

lemma find?_key_eq_of_nodup {α : Type} (datasets : List (String × Dataset α))
    (id : String) (d : Dataset α) (hnodup : (datasets.map Prod.fst).Nodup)
    (hmem : (id, d) ∈ datasets) :
    datasets.find? (fun p => p.1 == id) = some (id, d) := by
  induction datasets with
  | nil => simp at hmem
  | cons p rest ih =>
      obtain ⟨k, d0⟩ := p
      simp only [List.map_cons, List.nodup_cons] at hnodup
      by_cases hk : k = id
      · rcases List.mem_cons.mp hmem with heq | hmem'
        · rw [List.find?_cons_of_pos _ (by simp [hk])]
          rw [heq]
        · exact absurd (List.mem_map.mpr ⟨(id, d), hmem', rfl⟩) (hk ▸ hnodup.1)
      · rcases List.mem_cons.mp hmem with heq | hmem'
        · exact absurd (congrArg Prod.fst heq).symm hk
        · rw [List.find?_cons_of_neg _ (by simp [hk])]
          exact ih hnodup.2 hmem'

/-- Claim C5: if the selected id names an existing dataset in the collection,
the selected sequence is exactly that single dataset; for every id not
present in the collection (including an empty id), the selected sequence is
all datasets of the collection in iteration order. -/
theorem selectedDatasetsOf_spec (α : Type) (datasets : List (String × Dataset α))
    (id : String) :
    (id ∉ datasets.map Prod.fst →
      selectedDatasetsOf datasets id = datasets.map Prod.snd) ∧
    (∀ d : Dataset α, (datasets.map Prod.fst).Nodup → (id, d) ∈ datasets →
      selectedDatasetsOf datasets id = [d]) := by
  constructor
  · intro hid
    have hfind : datasets.find? (fun p => p.1 == id) = none := by
      rw [List.find?_eq_none]
      intro p hp
      simp only [beq_iff_eq]
      intro he
      exact hid (List.mem_map.mpr ⟨p, hp, he⟩)
    simp [selectedDatasetsOf, lookupDataset, hfind]
  · intro d hnodup hmem
    simp [selectedDatasetsOf, lookupDataset,
      find?_key_eq_of_nodup datasets id d hnodup hmem]

/-- Witness for C5: a missing id selects every dataset in order; an existing
id selects exactly that dataset. -/
theorem selectedDatasetsOf_spec_witness :
    selectedDatasetsOf
        [("a", (⟨[1], [], "a", none⟩ : Dataset Nat)), ("b", ⟨[2], [], "b", none⟩)] "zz"
      = [⟨[1], [], "a", none⟩, ⟨[2], [], "b", none⟩] ∧
    selectedDatasetsOf
        [("a", (⟨[1], [], "a", none⟩ : Dataset Nat)), ("b", ⟨[2], [], "b", none⟩)] "b"
      = [⟨[2], [], "b", none⟩] :=
  ⟨(selectedDatasetsOf_spec Nat _ "zz").1 (by decide),
   (selectedDatasetsOf_spec Nat _ "b").2 _ (by decide) (by decide)⟩

lemma exportData_map_content {α β : Type} [Inhabited α]
    (fCsv : List α → List String → β) (filtered : Bool) :
    ∀ l : List (Dataset α),
      (l.flatMap (fun sd =>
        if EXPORT_DATA_TYPE_CSV == EXPORT_DATA_TYPE_CSV then
          [{ content := fCsv (rowsToExport sd filtered) sd.fields,
             mimeType := "text/csv",
             filename := DEFAULT_DATA_NAME ++ "_" ++ sd.label ++ ".csv" : Payload β }]
        else [])).map Payload.content
      = l.map (fun sd => fCsv (rowsToExport sd filtered) sd.fields) := by
  intro l
  induction l with
  | nil => rfl
  | cons x xs ih =>
      simp only [beq_self_eq_true, if_true] at ih ⊢
      simp only [List.flatMap_cons, List.map_append, List.map_cons, List.map_nil,
        List.singleton_append]
      rw [ih]

/-- Claim C6: for every dataset, when filtered is true the row sequence handed
to the serializer is exactly the map of each index in filteredRowIndices to
its row in allRows, preserving the order of the index sequence (indices
[2, 0] over rows [r0, r1, r2] yield [r2, r0]); when filtered is false the row
sequence is allRows unchanged. -/
theorem exportData_row_selection (α β : Type) [Inhabited α]
    (fCsv : List α → List String → β) (datasets : List (String × Dataset α))
    (id : String) (filtered : Bool) :
    ((exportData fCsv datasets id EXPORT_DATA_TYPE_CSV filtered).map Payload.content
      = (selectedDatasetsOf datasets id).map
          (fun sd => fCsv (rowsToExport sd filtered) sd.fields)) ∧
    (∀ ds : Dataset α, rowsToExport ds false = ds.allData) ∧
    (∀ ds : Dataset α, rowsToExport ds true
      = (ds.filteredIdxCPU.getD []).map (fun i => ds.allData.getD i default)) ∧
    (∀ (r0 r1 r2 : α) (f : List String) (l : String),
      rowsToExport ⟨[r0, r1, r2], f, l, some [2, 0]⟩ true = [r2, r0]) := by
  refine ⟨?_, fun ds => rfl, fun ds => rfl, fun r0 r1 r2 f l => rfl⟩
  unfold exportData
  by_cases hsel : (selectedDatasetsOf datasets id).length = 0
  · rw [if_pos hsel]
    rw [List.length_eq_zero.mp hsel]
    rfl
  · rw [if_neg hsel]
    exact exportData_map_content fCsv filtered _

/-- Claim C8: for every dataset collection and every dataType that is not the
recognized CSV export data type, exportData produces and delivers no payload
and raises no error (it is total and returns the empty payload list). -/
theorem exportData_unrecognized_type (α β : Type) [Inhabited α]
    (fCsv : List α → List String → β) (datasets : List (String × Dataset α))
    (id dataType : String) (filtered : Bool) (h : dataType ≠ EXPORT_DATA_TYPE_CSV) :
    exportData fCsv datasets id dataType filtered = [] := by
  unfold exportData
  have hbeq : (dataType == EXPORT_DATA_TYPE_CSV) = false := by
    rw [beq_eq_false_iff_ne]
    exact h
  by_cases hsel : (selectedDatasetsOf datasets id).length = 0
  · rw [if_pos hsel]
  · rw [if_neg hsel]
    have hall : ∀ l : List (Dataset α),
        l.flatMap (fun sd =>
          if dataType == EXPORT_DATA_TYPE_CSV then
            [{ content := fCsv (rowsToExport sd filtered) sd.fields,
               mimeType := "text/csv",
               filename := DEFAULT_DATA_NAME ++ "_" ++ sd.label ++ ".csv" : Payload β }]
          else []) = [] := by
      intro l
      induction l with
      | nil => rfl
      | cons x xs ih =>
          simp only [hbeq, Bool.false_eq_true, if_false] at ih ⊢
          simp only [List.flatMap_cons, List.nil_append]
          exact ih
    exact hall _

/-- Witness for C8: a JSON request over a one-dataset collection yields no payload. -/
theorem exportData_unrecognized_type_witness :
    exportData (fun (_ : List Nat) (_ : List String) => "")
      [("a", ⟨[1], [], "a", none⟩)] "a" "json" true = [] :=
  exportData_unrecognized_type Nat String _ _ "a" "json" true (by decide)

/-- Claim C10: for every dataset whose filteredIdxCPU property is absent,
exportData with filtered = true serializes an empty row sequence for that
dataset (the missing property defaults to the empty index list), not the
dataset's full allRows. -/
theorem exportData_missing_filteredIdx (α β : Type) [Inhabited α]
    (fCsv : List α → List String → β) (key : String) (ds : Dataset α)
    (h : ds.filteredIdxCPU = none) :
    rowsToExport ds true = [] ∧
    (exportData fCsv [(key, ds)] key EXPORT_DATA_TYPE_CSV true).map Payload.content
      = [fCsv [] ds.fields] := by
  have hrows : rowsToExport ds true = [] := by
    simp [rowsToExport, h]
  refine ⟨hrows, ?_⟩
  have hsel : selectedDatasetsOf [(key, ds)] key = [ds] := by
    simp [selectedDatasetsOf, lookupDataset, List.find?]
  unfold exportData
  rw [hsel]
  simp [hrows]

/-- Witness for C10: a dataset with three rows but no filteredIdxCPU exports
the empty row list when filtered. -/
theorem exportData_missing_filteredIdx_witness :
    rowsToExport (⟨[1, 2, 3], [], "a", none⟩ : Dataset Nat) true = [] ∧
    (exportData (fun rows (_ : List String) => rows)
        [("a", ⟨[1, 2, 3], [], "a", none⟩)] "a" EXPORT_DATA_TYPE_CSV true).map Payload.content
      = [([] : List Nat)] :=
  exportData_missing_filteredIdx Nat (List Nat) (fun rows _ => rows) "a"
    ⟨[1, 2, 3], [], "a", none⟩ rfl

/-! ## Standalone HTML export (exportHtml) -/

/-- The data object exportHtml builds and hands to the document template:
serialized map, mapboxApiAccessToken and mode. -/
structure HtmlInput (μ : Type) where
  savedMap : μ
  mapboxApiAccessToken : Option String
  mode : String

/-- Embedding of exportHtml from export-utils.js: the token slot of the
template input is userMapboxToken when (userMapboxToken or empty) is not the
empty string, else exportMapboxAccessToken; none models null/undefined. The
external collaborators KeplerGlSchema.save and exportMapToHTML are abstract
parameters. -/
def exportHtml {σ μ : Type} (save : σ → μ) (render : HtmlInput μ → String)
    (state : σ) (userMapboxToken exportMapboxAccessToken : Option String)
    (mode : String) : Payload String :=
  let token := if (userMapboxToken.getD "") ≠ "" then userMapboxToken
               else exportMapboxAccessToken
  { content := render { savedMap := save state, mapboxApiAccessToken := token, mode := mode },
    mimeType := "text/html",
    filename := DEFAULT_HTML_NAME }

/-- Claim C9: the access token embedded in the serialized document equals the
user-supplied override token exactly when that override is a non-empty
string; for every empty, null, or undefined override it equals the fallback
token. -/
theorem exportHtml_token_override (σ μ : Type) (save : σ → μ)
    (render : HtmlInput μ → String) (state : σ) (u fb : Option String)
    (mode : String) :
    (∀ s : String, u = some s → s ≠ "" →
      exportHtml save render state u fb mode
        = ⟨render ⟨save state, some s, mode⟩, "text/html", DEFAULT_HTML_NAME⟩) ∧
    ((u = none ∨ u = some "") →
      exportHtml save render state u fb mode
        = ⟨render ⟨save state, fb, mode⟩, "text/html", DEFAULT_HTML_NAME⟩) := by
  constructor
  · intro s hu hs
    subst hu
    simp only [exportHtml, Option.getD_some]
    rw [if_pos hs]
  · intro hu
    rcases hu with h | h <;> subst h <;> simp [exportHtml]

/-- Witness for C9: a non-empty override wins; a null override falls back. -/
theorem exportHtml_token_override_witness :
    exportHtml (fun u : Unit => u) (fun d => d.mapboxApiAccessToken.getD "") ()
        (some "tok") (some "fb") "READ"
      = ⟨"tok", "text/html", DEFAULT_HTML_NAME⟩ ∧
    exportHtml (fun u : Unit => u) (fun d => d.mapboxApiAccessToken.getD "") ()
        none (some "fb") "READ"
      = ⟨"fb", "text/html", DEFAULT_HTML_NAME⟩ :=
  ⟨(exportHtml_token_override Unit Unit _ _ () (some "tok") (some "fb") "READ").1
      "tok" rfl (by decide),
   (exportHtml_token_override Unit Unit _ _ () none (some "fb") "READ").2 (Or.inl rfl)⟩

/-! ## File delivery (downloadFile) -/

/-- The side-effecting calls of downloadFile, in source order. -/
inductive DomAction where
  | createObjectURL
  | appendChild
  | click
  | removeChild
  | revokeObjectURL
  deriving DecidableEq

/-- Which DOM delivery calls throw in a given run. -/
structure DomEnv where
  appendChildThrows : Bool
  clickThrows : Bool
  removeChildThrows : Bool
  deriving DecidableEq

/-- One DOM call: record the attempted action after the actions already
performed; when the environment makes the call fail, throw (Except.error
carrying the trace) as a JS exception would. -/
def domCall (throws : Bool) (a : DomAction) (trace : List DomAction) :
    Except (List DomAction) (List DomAction) :=
  if throws then Except.error (trace ++ [a]) else Except.ok (trace ++ [a])

/-- Embedding of downloadFile from export-utils.js: createObjectURL, then
appendChild, click, removeChild, revokeObjectURL in order, with no
try/finally around any of them; an exception in one call skips everything
after it, exactly as in the straight-line source. -/
def downloadFile (env : DomEnv) : Except (List DomAction) (List DomAction) := do
  let t ← domCall false DomAction.createObjectURL []
  let t ← domCall env.appendChildThrows DomAction.appendChild t
  let t ← domCall env.clickThrows DomAction.click t
  let t ← domCall env.removeChildThrows DomAction.removeChild t
  domCall false DomAction.revokeObjectURL t

/-- Claim C7 is violated by the code (code bug): in the run where link.click()
throws, downloadFile propagates the error with the object URL created but
never revoked, and only the error-free run reaches revokeObjectURL. -/
theorem downloadFile_leaks_url_on_click_throw :
    downloadFile ⟨false, true, false⟩
      = Except.error [DomAction.createObjectURL, DomAction.appendChild, DomAction.click] ∧
    DomAction.createObjectURL
      ∈ [DomAction.createObjectURL, DomAction.appendChild, DomAction.click] ∧
    DomAction.revokeObjectURL
      ∉ [DomAction.createObjectURL, DomAction.appendChild, DomAction.click] ∧
    downloadFile ⟨false, false, false⟩
      = Except.ok [DomAction.createObjectURL, DomAction.appendChild, DomAction.click,
          DomAction.removeChild, DomAction.revokeObjectURL] :=
  ⟨rfl, by decide, by decide, rfl⟩
